import Mathlib

/-!
Shallow embedding of the forecast reshaping logic of the weather API client
(file `src/py/frequenz/client/weather/_types.py`).

Modelling conventions:
* `float64` scalar values (feature values, latitudes, longitudes) are modelled
  as exact rationals `ℚ`: the code only copies these values and compares them
  structurally; it performs no floating-point arithmetic on them.
* `datetime` timestamps are modelled as abstract instants `Int`; the code only
  compares them for equality (`valid_at_ts.ToDatetime()` comparisons).
* numpy's 3-d float array is modelled by `NDArray3`: an explicit shape (numpy
  keeps the shape of an axis even when its length is 0) plus nested lists of
  cells, where a cell `none` is the NaN sentinel written by
  `np.full(..., np.nan)` and `some v` is a real value copied from the payload.
* Python exceptions are modelled by `Except`: the `ValueError` raised on an
  empty payload becomes `ToArrayError.emptyPayload` resp.
  `FlattenError.emptyPayload`; the catch-all
  `raise RuntimeError("Error processing forecast data") from e` becomes
  `ToArrayError.processingError` carrying the cause; an out-of-range protobuf
  repeated-field access (Python `IndexError`) becomes `InternalErr.indexError`;
  and the `ValueError` raised by the bare `ForecastFeature(code)` enum
  constructor on an unknown wire code becomes `FlattenError.unknownFeature`.
* The `print`-ed shape-mismatch warnings of `to_ndarray_vlf` are modelled as a
  list of `WarnDim` tags returned next to the array.
-/

/-- The weather forecast features of the `ForecastFeature` enum, in the
declaration order of the Python `enum.Enum` (iteration order of
`for t in ForecastFeature`). -/
inductive ForecastFeature where
  | UNSPECIFIED
  | TEMPERATURE_2_METRE
  | U_WIND_COMPONENT_100_METRE
  | V_WIND_COMPONENT_100_METRE
  | U_WIND_COMPONENT_10_METRE
  | V_WIND_COMPONENT_10_METRE
  | SURFACE_SOLAR_RADIATION_DOWNWARDS
  | SURFACE_NET_SOLAR_RADIATION
deriving DecidableEq

/-- Modelled from the spec: the wire integer codes of the protobuf
`ForecastFeature` enum (`weather_pb2.ForecastFeature`) are defined in the
repository's protobuf files, which are not under `src/`; the spec only states
that the enum has an `UNSPECIFIED` fallback and distinct members, so the codes
are modelled as distinct naturals with `UNSPECIFIED` mapped to 0 (the protobuf
convention for unspecified enum values). -/
def ForecastFeature.value : ForecastFeature → Nat
  | .UNSPECIFIED => 0
  | .TEMPERATURE_2_METRE => 1
  | .U_WIND_COMPONENT_100_METRE => 2
  | .V_WIND_COMPONENT_100_METRE => 3
  | .U_WIND_COMPONENT_10_METRE => 4
  | .V_WIND_COMPONENT_10_METRE => 5
  | .SURFACE_SOLAR_RADIATION_DOWNWARDS => 6
  | .SURFACE_NET_SOLAR_RADIATION => 7

/-- All members of the enum in declaration order (`for t in ForecastFeature`). -/
def ForecastFeature.allFeatures : List ForecastFeature :=
  [.UNSPECIFIED, .TEMPERATURE_2_METRE, .U_WIND_COMPONENT_100_METRE,
   .V_WIND_COMPONENT_100_METRE, .U_WIND_COMPONENT_10_METRE,
   .V_WIND_COMPONENT_10_METRE, .SURFACE_SOLAR_RADIATION_DOWNWARDS,
   .SURFACE_NET_SOLAR_RADIATION]

/-- The bare enum constructor `ForecastFeature(code)`: looks the wire code up
among the members; `none` models the `ValueError` Python raises when no member
has that value. -/
def featureOfCode? (code : Nat) : Option ForecastFeature :=
  ForecastFeature.allFeatures.find? (fun t => t.value == code)

/-- `ForecastFeature.from_pb`: returns `UNSPECIFIED` when
`not any(t.value == forecast_feature for t in ForecastFeature)` (the `any`
test is exactly `(featureOfCode? code).isSome`), otherwise the member with
that value, `ForecastFeature(forecast_feature)`. -/
def ForecastFeature.from_pb (code : Nat) : ForecastFeature :=
  match featureOfCode? code with
  | some t => t
  | none => .UNSPECIFIED

/-- `Location` dataclass: latitude, longitude, ISO country code. Frozen
dataclass equality is structural on all three fields. -/
structure Location where
  latitude : ℚ
  longitude : ℚ
  country_code : String
deriving DecidableEq

/-- `Location.from_pb`: field-by-field copy of the protobuf location message
(the message itself is modelled by the same structure). -/
def Location.from_pb (location : Location) : Location :=
  ⟨location.latitude, location.longitude, location.country_code⟩

/-- One `(feature, value)` entry of a per-validity-time forecast: the wire
enum code of the feature and the float64 scalar value. -/
structure FeatureForecast where
  feature : Nat
  value : ℚ
deriving DecidableEq

/-- One per-validity-time entry of a location forecast (`forecasts` element):
its validity timestamp and its ordered feature entries. -/
structure Forecast where
  valid_at_ts : Int
  features : List FeatureForecast
deriving DecidableEq

/-- One `location_forecasts` entry of a payload: location, creation timestamp
and the ordered per-validity-time forecasts. -/
structure LocationForecast where
  location : Location
  creation_ts : Int
  forecasts : List Forecast
deriving DecidableEq

/-- The live-forecast response wrapped by the `Forecasts` dataclass: its
`location_forecasts` repeated field. -/
structure Forecasts where
  location_forecasts : List LocationForecast
deriving DecidableEq

/-- The historical-forecast response wrapped by the `HistoricalForecasts`
dataclass: its `location_forecasts` repeated field. -/
structure HistoricalForecasts where
  location_forecasts : List LocationForecast
deriving DecidableEq

/-- Internal failure inside the `try` block of `to_ndarray_vlf`: the only
possible failure is an out-of-range access to a protobuf repeated field
(Python `IndexError`). -/
inductive InternalErr where
  | indexError
deriving DecidableEq

/-- The exceptions `to_ndarray_vlf` can raise: the `ValueError` on an empty
payload (the spec's `EmptyPayload`) and the `RuntimeError` wrapper (the spec's
`ForecastProcessingError`) carrying the original cause. -/
inductive ToArrayError where
  | emptyPayload
  | processingError (cause : InternalErr)
deriving DecidableEq

/-- The exceptions the `HistoricalForecasts.flatten` path can raise: the
`ValueError` on an empty payload and the `ValueError` raised by the bare
`ForecastFeature(code)` constructor on an unknown wire code. -/
inductive FlattenError where
  | emptyPayload
  | unknownFeature (code : Nat)
deriving DecidableEq

/-- Which dimension a shape-mismatch warning (a `print` call at the end of
`to_ndarray_vlf`) talks about. -/
inductive WarnDim where
  | times
  | locations
  | features
deriving DecidableEq

/-- The numpy 3-d array: shape as allocated by `np.full` plus the cell data,
`data[t][l][f]` laid out as `array[t, l, f]`. A `none` cell is NaN. -/
structure NDArray3 where
  shapeT : Nat
  shapeL : Nat
  shapeF : Nat
  data : List (List (List (Option ℚ)))
deriving DecidableEq

/-- `np.full((T, L, F), np.nan)`: every cell initialized to the NaN sentinel. -/
def npFull (T L F : Nat) : NDArray3 :=
  ⟨T, L, F, List.replicate T (List.replicate L (List.replicate F none))⟩

/-- Replace the element at position `i` by `g` applied to it; out-of-range
positions are left unchanged (the loops below only write in-range cells). -/
def setIn {α : Type} (xs : List α) (i : Nat) (g : α → α) : List α :=
  match xs, i with
  | [], _ => []
  | x :: rest, 0 => g x :: rest
  | x :: rest, n + 1 => x :: setIn rest n g

/-- `array[t, l, f] = v`: write one cell of the array. -/
def setCell (a : NDArray3) (t l f : Nat) (v : ℚ) : NDArray3 :=
  ⟨a.shapeT, a.shapeL, a.shapeF,
    setIn a.data t (fun p => setIn p l (fun r => setIn r f (fun _ => some v)))⟩

/-- Read one cell of the array: `none` when the position is out of range,
`some c` with the cell content (NaN = `none`) otherwise. -/
def getCell (a : NDArray3) (t l f : Nat) : Option (Option ℚ) :=
  a.data[t]?.bind fun p => p[l]?.bind fun r => r[f]?

/-- The access chain
`location_forecasts[l_index].forecasts[t_index].features[f_index].value`;
any out-of-range step raises `IndexError`. -/
def getValue (lfs : List LocationForecast) (l t f : Nat) : Except InternalErr ℚ :=
  match lfs[l]? with
  | none => .error .indexError
  | some lf =>
    match lf.forecasts[t]? with
    | none => .error .indexError
    | some fc =>
      match fc.features[f]? with
      | none => .error .indexError
      | some fe => .ok fe.value

/-- The index of the first element satisfying `p` — the
`for index, x in enumerate(xs): if p(x): ...; break` loop pattern. -/
def findFirst {α : Type} (p : α → Bool) : List α → Option Nat
  | [] => none
  | a :: as => if p a then some 0 else (findFirst p as).map (· + 1)

/-- The match test of the location filter loop:
`location == Location.from_pb(location_forecast.location)`. -/
def locMatches (loc : Location) (lf : LocationForecast) : Bool :=
  loc == Location.from_pb lf.location

/-- The location filter loop: for each requested location append the index of
the first structurally equal payload location, skipping requests with no
match. -/
def resolveLocations (reqs : List Location) (lfs : List LocationForecast) : List Nat :=
  reqs.filterMap (fun loc => findFirst (locMatches loc) lfs)

/-- The validity-time filter loop over the first location's forecasts:
`req_validitiy_time == val_time.valid_at_ts.ToDatetime()`. -/
def resolveTimes (reqs : List Int) (template : List Forecast) : List Nat :=
  reqs.filterMap (fun rt => findFirst (fun fc => rt == fc.valid_at_ts) template)

/-- The feature filter loop over the first location's first forecast entry:
`req_feature == ForecastFeature.from_pb(feature.feature)`. -/
def resolveFeatures (reqs : List ForecastFeature) (template : List FeatureForecast) :
    List Nat :=
  reqs.filterMap
    (fun rf => findFirst (fun fe => rf == ForecastFeature.from_pb fe.feature) template)

/-- Innermost population loop (`for f_index in feature_indexes`): writes
`array[array_t_index, array_l_index, array_f_index]` for the fixed selected
location `l` and time `t`, advancing `array_f_index` from `af`. -/
def loopF (lfs : List LocationForecast) (l t : Nat) (fIdxs : List Nat)
    (tA lA af : Nat) (a : NDArray3) : Except InternalErr NDArray3 :=
  match fIdxs with
  | [] => .ok a
  | f :: rest =>
    match getValue lfs l t f with
    | .error e => .error e
    | .ok v => loopF lfs l t rest tA lA (af + 1) (setCell a tA lA af v)

/-- Middle population loop (`for t_index in validity_times_indexes`). -/
def loopT (lfs : List LocationForecast) (l : Nat) (tIdxs fIdxs : List Nat)
    (lA tA : Nat) (a : NDArray3) : Except InternalErr NDArray3 :=
  match tIdxs with
  | [] => .ok a
  | t :: rest =>
    match loopF lfs l t fIdxs tA lA 0 a with
    | .error e => .error e
    | .ok a2 => loopT lfs l rest fIdxs lA (tA + 1) a2

/-- Outermost population loop (`for l_index in location_indexes`). -/
def loopL (lfs : List LocationForecast) (lIdxs tIdxs fIdxs : List Nat)
    (lA : Nat) (a : NDArray3) : Except InternalErr NDArray3 :=
  match lIdxs with
  | [] => .ok a
  | l :: rest =>
    match loopT lfs l tIdxs fIdxs lA 0 a with
    | .error e => .error e
    | .ok a2 => loopL lfs rest tIdxs fIdxs (lA + 1) a2

/-- Python truthiness of an optional filter list (`if locations:`): `False`
for `None` and for an empty list. -/
def truthy {α : Type} (o : Option (List α)) : Bool :=
  match o with
  | none => false
  | some l => !l.isEmpty

/-- The body of the `try` block of `to_ndarray_vlf`: template extraction,
filter resolution, allocation, population and the shape-mismatch warning
checks. Note the dimension sizes are read from the first location entry
(`location_forecasts[0]`), and `num_features` accesses
`location_forecasts[0].forecasts[0]` unconditionally. -/
def toNdarrayBody (lfs : List LocationForecast) (validity_times : Option (List Int))
    (locations : Option (List Location)) (features : Option (List ForecastFeature)) :
    Except InternalErr (NDArray3 × List WarnDim) :=
  match lfs[0]? with
  | none => .error .indexError
  | some lf0 =>
    let num_times := lf0.forecasts.length
    let num_locations := lfs.length
    match lf0.forecasts[0]? with
    | none => .error .indexError
    | some fc0 =>
      let num_features := fc0.features.length
      let location_indexes :=
        if truthy locations then resolveLocations (locations.getD []) lfs
        else List.range num_locations
      let validity_times_indexes :=
        if truthy validity_times then resolveTimes (validity_times.getD []) lf0.forecasts
        else List.range num_times
      let feature_indexes :=
        if truthy features then resolveFeatures (features.getD []) fc0.features
        else List.range num_features
      match loopL lfs location_indexes validity_times_indexes feature_indexes 0
          (npFull validity_times_indexes.length location_indexes.length
            feature_indexes.length) with
      | .error e => .error e
      | .ok arr =>
        let warns :=
          (if validity_times.isSome &&
              !(arr.shapeT == (validity_times.getD []).length) then [WarnDim.times]
           else []) ++
          (if locations.isSome &&
              !(arr.shapeL == location_indexes.length) then [WarnDim.locations]
           else []) ++
          (if features.isSome &&
              !(arr.shapeF == feature_indexes.length) then [WarnDim.features]
           else [])
        .ok (arr, warns)

/-- `Forecasts.to_ndarray_vlf`: empty-payload check, then the guarded body;
any exception escaping the body is wrapped in
`RuntimeError("Error processing forecast data") from e`. -/
def Forecasts.to_ndarray_vlf (self : Forecasts) (validity_times : Option (List Int))
    (locations : Option (List Location)) (features : Option (List ForecastFeature)) :
    Except ToArrayError (NDArray3 × List WarnDim) :=
  if self.location_forecasts.isEmpty then .error .emptyPayload
  else
    match toNdarrayBody self.location_forecasts validity_times locations features with
    | .error e => .error (.processingError e)
    | .ok r => .ok r

/-- One output tuple of the flattener: creation timestamp, latitude,
longitude, validity timestamp, feature, value. -/
structure FlatTuple where
  creation_ts : Int
  latitude : ℚ
  longitude : ℚ
  valid_at_ts : Int
  feature : ForecastFeature
  value : ℚ
deriving DecidableEq

/-- Error-propagating map over a list — the semantics of a Python `for` loop
whose body may raise: stops at the first raised exception. -/
def exMap {α β ε : Type} (f : α → Except ε β) : List α → Except ε (List β)
  | [] => .ok []
  | a :: as =>
    match f a with
    | .error e => .error e
    | .ok b =>
      match exMap f as with
      | .error e => .error e
      | .ok bs => .ok (b :: bs)

/-- The loop body of the flattener for one feature entry: builds the 6-tuple
`(creation_ts, latitude, longitude, valid_at_ts, feature, value)`; the feature
is converted with the bare `ForecastFeature(code)` constructor, so an unknown
wire code raises (the error carries the code). -/
def tupleOfFeature (lf : LocationForecast) (fc : Forecast) (fe : FeatureForecast) :
    Except Nat FlatTuple :=
  match featureOfCode? fe.feature with
  | some ft =>
    .ok (⟨lf.creation_ts, lf.location.latitude, lf.location.longitude,
          fc.valid_at_ts, ft, fe.value⟩ : FlatTuple)
  | none => .error fe.feature

/-- The module-level `flatten` function: iterates locations, each location's
forecasts and each forecast's features in order, appending one tuple per
feature entry actually present. -/
def flatten (location_forecasts : List LocationForecast) :
    Except Nat (List FlatTuple) :=
  match exMap (fun lf =>
      exMap (fun fc => exMap (tupleOfFeature lf fc) fc.features) lf.forecasts)
    location_forecasts with
  | .error e => .error e
  | .ok nested => .ok nested.flatten.flatten

/-- Alias for the module-level `flatten`, needed because inside the container
method below the bare name `flatten` resolves to the method itself. -/
def flattenPayload : List LocationForecast → Except Nat (List FlatTuple) := flatten

/-- `HistoricalForecasts.flatten`: empty-payload check, then the module-level
`flatten`; the unknown-feature `ValueError` propagates unwrapped (there is no
`try` block here), the sum type only records which `ValueError` it was. -/
def HistoricalForecasts.flatten (self : HistoricalForecasts) :
    Except FlattenError (List FlatTuple) :=
  if self.location_forecasts.isEmpty then .error .emptyPayload
  else
    match flattenPayload self.location_forecasts with
    | .error code => .error (.unknownFeature code)
    | .ok ts => .ok ts

/-- Second definition for the refinement claim about the flattener, following
the spec's words (§4.4): one tuple per location × validity-time × feature
combination present in the payload, in natural payload order, with the
creation time and coordinates copied from the location entry and the feature
mapped by the total domain mapping. -/
def specFlattenTuples (lfs : List LocationForecast) : List FlatTuple :=
  ((lfs.map (fun lf =>
      lf.forecasts.map (fun fc =>
        fc.features.map (fun fe =>
          (⟨lf.creation_ts, lf.location.latitude, lf.location.longitude,
            fc.valid_at_ts, ForecastFeature.from_pb fe.feature, fe.value⟩ :
            FlatTuple))))).flatten).flatten

/-- A 2-location × 3-validity-time × 2-feature payload with every cell
present (the spec's full scenario payload). -/
def payload232 : List LocationForecast :=
  [⟨⟨52, 13, "DE"⟩, 1000,
     [⟨10, [⟨1, 5⟩, ⟨2, 6⟩]⟩, ⟨20, [⟨1, 7⟩, ⟨2, 8⟩]⟩, ⟨30, [⟨1, 9⟩, ⟨2, 10⟩]⟩]⟩,
   ⟨⟨49, 2, "FR"⟩, 1000,
     [⟨10, [⟨1, 11⟩, ⟨2, 12⟩]⟩, ⟨20, [⟨1, 13⟩, ⟨2, 14⟩]⟩, ⟨30, [⟨1, 15⟩, ⟨2, 16⟩]⟩]⟩]

/-- A location that does not occur in `payload232`. -/
def locAbsent : Location := ⟨0, 0, "XX"⟩

/-- A payload whose second location is missing the feature entry at template
index 1 (sparse feature data). -/
def sparsePayload : List LocationForecast :=
  [⟨⟨52, 13, "DE"⟩, 1000, [⟨10, [⟨1, 5⟩, ⟨2, 6⟩]⟩]⟩,
   ⟨⟨49, 2, "FR"⟩, 1000, [⟨10, [⟨1, 7⟩]⟩]⟩]

/-- A payload containing a feature entry with a wire code that is not the
value of any known enum member. -/
def unknownCodePayload : List LocationForecast :=
  [⟨⟨52, 13, "DE"⟩, 1000, [⟨10, [⟨99, 5⟩]⟩]⟩]

theorem value_inj : ∀ t t2 : ForecastFeature, t.value = t2.value → t = t2 := by
  intro t t2
  cases t <;> cases t2 <;> decide

theorem mem_allFeatures : ∀ t : ForecastFeature, t ∈ ForecastFeature.allFeatures := by
  intro t
  cases t <;> decide

/-- C9: `ForecastFeature.from_pb` is a total function on wire codes: a code
equal to the value of a known member yields that member, and any other code
yields `UNSPECIFIED` instead of failing. -/
theorem from_pb_total_fallback (code : Nat) :
    (∀ t : ForecastFeature, t.value = code → ForecastFeature.from_pb code = t) ∧
    ((∀ t : ForecastFeature, t.value ≠ code) →
      ForecastFeature.from_pb code = .UNSPECIFIED) := by
  constructor
  · intro t ht
    cases hfind : featureOfCode? code with
    | none =>
      exfalso
      have h2 : ∀ x ∈ ForecastFeature.allFeatures, ¬ (x.value == code) = true :=
        List.find?_eq_none.mp (by simpa [featureOfCode?] using hfind)
      exact h2 t (mem_allFeatures t) (by simp [ht])
    | some t2 =>
      have hfind2 : List.find? (fun x => x.value == code) ForecastFeature.allFeatures
          = some t2 := by simpa [featureOfCode?] using hfind
      have hp := List.find?_some hfind2
      have hval : t2.value = code := by simpa using hp
      have heq : t2 = t := value_inj t2 t (by rw [hval, ht])
      simp [ForecastFeature.from_pb, hfind, heq]
  · intro hall
    cases hfind : featureOfCode? code with
    | none => simp [ForecastFeature.from_pb, hfind]
    | some t2 =>
      exfalso
      have hfind2 : List.find? (fun x => x.value == code) ForecastFeature.allFeatures
          = some t2 := by simpa [featureOfCode?] using hfind
      have hp := List.find?_some hfind2
      exact hall t2 (by simpa using hp)

theorem from_pb_total_fallback_witness :
    ForecastFeature.from_pb 1 = .TEMPERATURE_2_METRE ∧
    ForecastFeature.from_pb 99 = .UNSPECIFIED :=
  ⟨(from_pb_total_fallback 1).1 .TEMPERATURE_2_METRE rfl,
   (from_pb_total_fallback 99).2 (by intro t; cases t <;> decide)⟩

/-- C4: a payload with zero location entries makes both `to_ndarray_vlf` and
the container `flatten` fail with the empty-payload error before any
processing, and a payload with at least one location entry never produces
that error. -/
theorem empty_payload_check (p : Forecasts) (h : HistoricalForecasts)
    (vts : Option (List Int)) (locs : Option (List Location))
    (feats : Option (List ForecastFeature)) :
    (p.location_forecasts = [] →
      p.to_ndarray_vlf vts locs feats = .error .emptyPayload) ∧
    (h.location_forecasts = [] → h.flatten = .error .emptyPayload) ∧
    (p.location_forecasts ≠ [] →
      p.to_ndarray_vlf vts locs feats ≠ .error .emptyPayload) ∧
    (h.location_forecasts ≠ [] → h.flatten ≠ .error .emptyPayload) := by
  refine ⟨?_, ?_, ?_, ?_⟩
  · intro he
    simp [Forecasts.to_ndarray_vlf, he]
  · intro he
    simp [HistoricalForecasts.flatten, he]
  · intro hne
    have hie : p.location_forecasts.isEmpty = false := by
      simp [List.isEmpty_iff]
      exact hne
    simp only [Forecasts.to_ndarray_vlf, hie, Bool.false_eq_true, if_false]
    cases hb : toNdarrayBody p.location_forecasts vts locs feats <;> simp [hb]
  · intro hne
    have hie : h.location_forecasts.isEmpty = false := by
      simp [List.isEmpty_iff]
      exact hne
    simp only [HistoricalForecasts.flatten, hie, Bool.false_eq_true, if_false]
    cases hf : flattenPayload h.location_forecasts <;> simp [hf]

theorem empty_payload_check_witness :
    Forecasts.to_ndarray_vlf ⟨[]⟩ none none none = .error .emptyPayload ∧
    HistoricalForecasts.flatten ⟨[]⟩ = .error .emptyPayload ∧
    Forecasts.to_ndarray_vlf ⟨payload232⟩ none none none ≠ .error .emptyPayload ∧
    HistoricalForecasts.flatten ⟨payload232⟩ ≠ .error .emptyPayload := by
  have h1 := empty_payload_check ⟨[]⟩ ⟨[]⟩ none none none
  have h2 := empty_payload_check ⟨payload232⟩ ⟨payload232⟩ none none none
  exact ⟨h1.1 rfl, h1.2.1 rfl, h2.2.2.1 (by decide), h2.2.2.2 (by decide)⟩

/-- C8: on a non-empty payload, every error `to_ndarray_vlf` produces is the
processing-error wrapper carrying an internal cause; no other error escapes
the guarded steps. -/
theorem internal_errors_wrapped (p : Forecasts) (vts : Option (List Int))
    (locs : Option (List Location)) (feats : Option (List ForecastFeature))
    (e : ToArrayError)
    (hne : p.location_forecasts ≠ [])
    (herr : p.to_ndarray_vlf vts locs feats = .error e) :
    ∃ cause, e = .processingError cause := by
  have hie : p.location_forecasts.isEmpty = false := by
    simp [List.isEmpty_iff]
    exact hne
  simp only [Forecasts.to_ndarray_vlf, hie, Bool.false_eq_true, if_false] at herr
  cases hb : toNdarrayBody p.location_forecasts vts locs feats with
  | error c =>
    rw [hb] at herr
    exact ⟨c, (Except.error.inj herr).symm⟩
  | ok r =>
    rw [hb] at herr
    cases herr

theorem internal_errors_wrapped_witness :
    ∃ cause, ToArrayError.processingError InternalErr.indexError =
      .processingError cause :=
  internal_errors_wrapped ⟨sparsePayload⟩ none none none _ (by decide) rfl

/-- C2: at a payload whose second location is missing the feature entry at
resolved index 1, `to_ndarray_vlf` does not return an array with a NaN cell:
the out-of-range access raises and is wrapped in the processing error. -/
theorem sparse_payload_raises :
    Forecasts.to_ndarray_vlf ⟨sparsePayload⟩ none none none =
      .error (.processingError .indexError) := by rfl

/-- C6: requesting a single location absent from the payload yields the
partial `(3, 0, 2)` array but no mismatch warning at all: the location (and
feature) warning conditions compare the axis length with the resolved index
count, which are always equal. -/
theorem absent_location_no_warning :
    Forecasts.to_ndarray_vlf ⟨payload232⟩ none (some [locAbsent]) none =
      .ok (⟨3, 0, 2, [[], [], []]⟩, []) := by rfl

theorem exMap_ok_forall {α β ε : Type} {f : α → Except ε β} :
    ∀ {l : List α} {bs : List β}, exMap f l = .ok bs → ∀ a ∈ l, ∃ b, f a = .ok b := by
  intro l
  induction l with
  | nil =>
    intro bs hok a ha
    simp at ha
  | cons x xs ih =>
    intro bs hok a ha
    rw [exMap] at hok
    cases hx : f x with
    | error e =>
      rw [hx] at hok
      cases hok
    | ok b =>
      rw [hx] at hok
      cases hrest : exMap f xs with
      | error e =>
        rw [hrest] at hok
        cases hok
      | ok bs2 =>
        rcases List.mem_cons.mp ha with rfl | hmem
        · exact ⟨b, hx⟩
        · exact ih hrest a hmem

theorem exMap_error_mem {α β ε : Type} {f : α → Except ε β} :
    ∀ {l : List α} {e : ε}, exMap f l = .error e → ∃ a ∈ l, f a = .error e := by
  intro l
  induction l with
  | nil =>
    intro e herr
    cases herr
  | cons x xs ih =>
    intro e herr
    rw [exMap] at herr
    cases hx : f x with
    | error e2 =>
      rw [hx] at herr
      cases herr
      exact ⟨x, List.mem_cons_self x xs, hx⟩
    | ok b =>
      rw [hx] at herr
      cases hrest : exMap f xs with
      | error e2 =>
        rw [hrest] at herr
        cases herr
        obtain ⟨a, ha, hfa⟩ := ih hrest
        exact ⟨a, List.mem_cons_of_mem x ha, hfa⟩
      | ok bs2 =>
        rw [hrest] at herr
        cases herr

theorem exMap_ok_map {α β ε : Type} {f : α → Except ε β} {g : α → β} :
    ∀ {l : List α}, (∀ a ∈ l, f a = .ok (g a)) → exMap f l = .ok (l.map g) := by
  intro l
  induction l with
  | nil =>
    intro hall
    rfl
  | cons x xs ih =>
    intro hall
    rw [exMap, hall x (List.mem_cons_self x xs),
      ih (fun a ha => hall a (List.mem_cons_of_mem x ha))]
    rfl

/-- C10: a non-empty historical payload containing a feature entry with an
unknown wire code makes the container `flatten` fail with the bare enum
constructor's error carrying an unknown code — the total `from_pb` fallback
is not used on this path. -/
theorem flatten_unknown_code_raises (h : HistoricalForecasts)
    (hne : h.location_forecasts ≠ [])
    (hbad : ∃ lf ∈ h.location_forecasts, ∃ fc ∈ lf.forecasts, ∃ fe ∈ fc.features,
        featureOfCode? fe.feature = none) :
    ∃ code, h.flatten = .error (.unknownFeature code) ∧ featureOfCode? code = none := by
  have hie : h.location_forecasts.isEmpty = false := by
    simp [List.isEmpty_iff]
    exact hne
  cases hE : exMap (fun lf =>
      exMap (fun fc => exMap (tupleOfFeature lf fc) fc.features) lf.forecasts)
      h.location_forecasts with
  | ok nested =>
    exfalso
    obtain ⟨lf, hlf, fc, hfc, fe, hfe, hnone⟩ := hbad
    obtain ⟨b1, hb1⟩ := exMap_ok_forall hE lf hlf
    obtain ⟨b2, hb2⟩ := exMap_ok_forall hb1 fc hfc
    obtain ⟨b3, hb3⟩ := exMap_ok_forall hb2 fe hfe
    rw [tupleOfFeature, hnone] at hb3
    cases hb3
  | error code =>
    obtain ⟨lf, hlf, hb1⟩ := exMap_error_mem hE
    obtain ⟨fc, hfc, hb2⟩ := exMap_error_mem hb1
    obtain ⟨fe, hfe, hb3⟩ := exMap_error_mem hb2
    have hcode : featureOfCode? code = none := by
      rw [tupleOfFeature] at hb3
      cases hx : featureOfCode? fe.feature with
      | some t =>
        rw [hx] at hb3
        cases hb3
      | none =>
        rw [hx] at hb3
        cases hb3
        exact hx
    refine ⟨code, ?_, hcode⟩
    simp only [HistoricalForecasts.flatten, hie, Bool.false_eq_true, if_false,
      flattenPayload, flatten, hE]

theorem flatten_unknown_code_raises_witness :
    ∃ code, HistoricalForecasts.flatten ⟨unknownCodePayload⟩ =
      .error (.unknownFeature code) ∧ featureOfCode? code = none :=
  flatten_unknown_code_raises ⟨unknownCodePayload⟩ (by decide) (by decide)

/-- C5: on a non-empty historical payload whose feature codes are all known,
the container `flatten` returns exactly the tuples described by the spec: one
6-tuple per location × validity-time × feature entry present, in natural
payload order, with creation time and coordinates copied from the location
entry; the output length is the total number of feature entries present. -/
theorem flatten_emits_all_in_order (h : HistoricalForecasts)
    (hne : h.location_forecasts ≠ [])
    (hknown : ∀ lf ∈ h.location_forecasts, ∀ fc ∈ lf.forecasts, ∀ fe ∈ fc.features,
        (featureOfCode? fe.feature).isSome = true) :
    h.flatten = .ok (specFlattenTuples h.location_forecasts) ∧
    (specFlattenTuples h.location_forecasts).length =
      (h.location_forecasts.map
        (fun lf => (lf.forecasts.map (fun fc => fc.features.length)).sum)).sum := by
  have hie : h.location_forecasts.isEmpty = false := by
    simp [List.isEmpty_iff]
    exact hne
  constructor
  · have hE : exMap (fun lf =>
        exMap (fun fc => exMap (tupleOfFeature lf fc) fc.features) lf.forecasts)
        h.location_forecasts =
        .ok (h.location_forecasts.map (fun lf =>
          lf.forecasts.map (fun fc => fc.features.map (fun fe =>
            (⟨lf.creation_ts, lf.location.latitude, lf.location.longitude,
              fc.valid_at_ts, ForecastFeature.from_pb fe.feature, fe.value⟩ :
              FlatTuple))))) := by
      apply exMap_ok_map
      intro lf hlf
      apply exMap_ok_map
      intro fc hfc
      apply exMap_ok_map
      intro fe hfe
      obtain ⟨t, ht⟩ := Option.isSome_iff_exists.mp (hknown lf hlf fc hfc fe hfe)
      rw [tupleOfFeature, ht, ForecastFeature.from_pb, ht]
    simp only [HistoricalForecasts.flatten, hie, Bool.false_eq_true, if_false,
      flattenPayload, flatten, hE]
    rfl
  · have h1 : ∀ (xss : List (List (List FlatTuple))),
        xss.flatten.flatten.length =
          (xss.map (fun xs => (xs.map List.length).sum)).sum := by
      intro xss
      induction xss with
      | nil => rfl
      | cons x rest ih => simp [List.flatten_cons, ih]
    simp only [specFlattenTuples]
    rw [h1]
    refine congrArg List.sum ?_
    rw [List.map_map]
    refine List.map_congr_left ?_
    intro lf _
    simp only [Function.comp_apply, List.map_map]
    refine congrArg List.sum ?_
    exact List.map_congr_left
      (fun fc _ => by simp [Function.comp_apply, List.length_map])

theorem flatten_emits_all_in_order_witness :
    HistoricalForecasts.flatten ⟨payload232⟩ = .ok (specFlattenTuples payload232) ∧
    (specFlattenTuples payload232).length = 12 :=
  ⟨(flatten_emits_all_in_order ⟨payload232⟩ (by decide) (by decide)).1, by decide⟩

theorem body_map_fst_vts (lfs : List LocationForecast) (locs : Option (List Location))
    (feats : Option (List ForecastFeature)) :
    (toNdarrayBody lfs (some []) locs feats).map Prod.fst =
      (toNdarrayBody lfs none locs feats).map Prod.fst := by
  unfold toNdarrayBody
  split
  · rfl
  · split
    · rfl
    · simp only [truthy, List.isEmpty_nil, Bool.not_true, Bool.false_eq_true, if_false]
      split
      · rfl
      · simp [Except.map]

theorem body_map_fst_locs (lfs : List LocationForecast) (vts : Option (List Int))
    (feats : Option (List ForecastFeature)) :
    (toNdarrayBody lfs vts (some []) feats).map Prod.fst =
      (toNdarrayBody lfs vts none feats).map Prod.fst := by
  unfold toNdarrayBody
  split
  · rfl
  · split
    · rfl
    · simp only [truthy, List.isEmpty_nil, Bool.not_true, Bool.false_eq_true, if_false]
      split
      · rfl
      · simp [Except.map]

theorem body_map_fst_feats (lfs : List LocationForecast) (vts : Option (List Int))
    (locs : Option (List Location)) :
    (toNdarrayBody lfs vts locs (some [])).map Prod.fst =
      (toNdarrayBody lfs vts locs none).map Prod.fst := by
  unfold toNdarrayBody
  split
  · rfl
  · split
    · rfl
    · simp only [truthy, List.isEmpty_nil, Bool.not_true, Bool.false_eq_true, if_false]
      split
      · rfl
      · simp [Except.map]

theorem exceptMap_error {ε α β : Type} (f : α → β) (e : ε) :
    (Except.error e : Except ε α).map f = .error e := rfl

theorem exceptMap_ok {ε α β : Type} (f : α → β) (a : α) :
    (Except.ok a : Except ε α).map f = (.ok (f a) : Except ε β) := rfl

theorem to_ndarray_map_fst_congr (p : Forecasts)
    (v1 v2 : Option (List Int)) (l1 l2 : Option (List Location))
    (f1 f2 : Option (List ForecastFeature))
    (hb : (toNdarrayBody p.location_forecasts v1 l1 f1).map Prod.fst =
          (toNdarrayBody p.location_forecasts v2 l2 f2).map Prod.fst) :
    (p.to_ndarray_vlf v1 l1 f1).map Prod.fst =
      (p.to_ndarray_vlf v2 l2 f2).map Prod.fst := by
  simp only [Forecasts.to_ndarray_vlf]
  by_cases hie : p.location_forecasts.isEmpty
  · simp [hie]
  · simp only [hie, Bool.false_eq_true, if_false]
    cases b1 : toNdarrayBody p.location_forecasts v1 l1 f1 with
    | error e1 =>
      cases b2 : toNdarrayBody p.location_forecasts v2 l2 f2 with
      | error e2 =>
        rw [b1, b2] at hb
      | ok r2 =>
        rw [b1, b2] at hb
        simp [exceptMap_error, exceptMap_ok] at hb
    | ok r1 =>
      cases b2 : toNdarrayBody p.location_forecasts v2 l2 f2 with
      | error e2 =>
        rw [b1, b2] at hb
        simp [exceptMap_error, exceptMap_ok] at hb
      | ok r2 =>
        rw [b1, b2] at hb
        simp only [exceptMap_ok, Except.ok.injEq] at hb
        simp [exceptMap_ok, hb]

/-- C7: for each of the three dimensions, an explicitly empty filter list is
treated by the truthiness check exactly like an absent filter: the returned
array (the first component, ignoring the printed warnings) is the same. -/
theorem empty_filter_acts_as_absent (p : Forecasts) (vts : Option (List Int))
    (locs : Option (List Location)) (feats : Option (List ForecastFeature)) :
    ((p.to_ndarray_vlf (some []) locs feats).map Prod.fst =
      (p.to_ndarray_vlf none locs feats).map Prod.fst) ∧
    ((p.to_ndarray_vlf vts (some []) feats).map Prod.fst =
      (p.to_ndarray_vlf vts none feats).map Prod.fst) ∧
    ((p.to_ndarray_vlf vts locs (some [])).map Prod.fst =
      (p.to_ndarray_vlf vts locs none).map Prod.fst) :=
  ⟨to_ndarray_map_fst_congr p (some []) none locs locs feats feats
      (body_map_fst_vts p.location_forecasts locs feats),
   to_ndarray_map_fst_congr p vts vts (some []) none feats feats
      (body_map_fst_locs p.location_forecasts vts feats),
   to_ndarray_map_fst_congr p vts vts locs locs (some []) none
      (body_map_fst_feats p.location_forecasts vts locs)⟩

theorem length_setIn {α : Type} (xs : List α) (i : Nat) (g : α → α) :
    (setIn xs i g).length = xs.length := by
  induction xs generalizing i with
  | nil => rfl
  | cons x rest ih =>
    cases i with
    | zero => rfl
    | succ n => simp [setIn, ih]

theorem getElem?_setIn_self {α : Type} (xs : List α) (i : Nat) (g : α → α) :
    (setIn xs i g)[i]? = xs[i]?.map g := by
  induction xs generalizing i with
  | nil => simp [setIn]
  | cons x rest ih =>
    cases i with
    | zero => simp [setIn]
    | succ n => simp [setIn, ih]

theorem getElem?_setIn_ne {α : Type} (xs : List α) (i j : Nat) (g : α → α)
    (h : j ≠ i) : (setIn xs i g)[j]? = xs[j]? := by
  induction xs generalizing i j with
  | nil => simp [setIn]
  | cons x rest ih =>
    cases i with
    | zero =>
      cases j with
      | zero => exact absurd rfl h
      | succ m => simp [setIn]
    | succ n =>
      cases j with
      | zero => simp [setIn]
      | succ m =>
        simp only [setIn, List.getElem?_cons_succ]
        exact ih n m (by omega)

theorem getCell_eq (a : NDArray3) (t l f : Nat) :
    getCell a t l f = (a.data[t]?.bind fun p => p[l]?.bind fun r => r[f]?) := rfl

theorem getCell_setCell_ne (a : NDArray3) {t l f t2 l2 f2 : Nat} (v : ℚ)
    (h : t2 ≠ t ∨ l2 ≠ l ∨ f2 ≠ f) :
    getCell (setCell a t l f v) t2 l2 f2 = getCell a t2 l2 f2 := by
  simp only [getCell_eq, setCell]
  by_cases ht : t2 = t
  · subst ht
    rw [getElem?_setIn_self]
    cases hd : a.data[t2]? with
    | none => simp
    | some p =>
      simp only [Option.map_some', Option.some_bind]
      by_cases hl : l2 = l
      · subst hl
        rw [getElem?_setIn_self]
        cases hp : p[l2]? with
        | none => simp
        | some r =>
          have hf : f2 ≠ f := by
            rcases h with h | h | h
            · exact absurd rfl h
            · exact absurd rfl h
            · exact h
          simp only [Option.map_some', Option.some_bind]
          rw [getElem?_setIn_ne _ _ _ _ hf]
      · rw [getElem?_setIn_ne _ _ _ _ hl]
  · rw [getElem?_setIn_ne _ _ _ _ ht]

theorem getCell_setCell_self (a : NDArray3) {t l f : Nat} (v : ℚ) {c : Option ℚ}
    (h : getCell a t l f = some c) :
    getCell (setCell a t l f v) t l f = some (some v) := by
  simp only [getCell_eq, setCell] at h ⊢
  rw [getElem?_setIn_self]
  cases hd : a.data[t]? with
  | none =>
    rw [hd] at h
    simp at h
  | some p =>
    rw [hd] at h
    simp only [Option.map_some', Option.some_bind] at h ⊢
    rw [getElem?_setIn_self]
    cases hp : p[l]? with
    | none =>
      rw [hp] at h
      simp at h
    | some r =>
      rw [hp] at h
      simp only [Option.map_some', Option.some_bind] at h ⊢
      rw [getElem?_setIn_self]
      cases hr : r[f]? with
      | none =>
        rw [hr] at h
        simp at h
      | some c2 => simp

theorem getCell_setCell_none (a : NDArray3) {t l f : Nat} (v : ℚ)
    (h : getCell a t l f = none) :
    getCell (setCell a t l f v) t l f = none := by
  simp only [getCell_eq, setCell] at h ⊢
  rw [getElem?_setIn_self]
  cases hd : a.data[t]? with
  | none => simp
  | some p =>
    rw [hd] at h
    simp only [Option.map_some', Option.some_bind] at h ⊢
    rw [getElem?_setIn_self]
    cases hp : p[l]? with
    | none => simp
    | some r =>
      rw [hp] at h
      simp only [Option.map_some', Option.some_bind] at h ⊢
      rw [getElem?_setIn_self]
      rw [h]
      rfl

theorem getCell_setCell_isSome (a : NDArray3) (t l f : Nat) (v : ℚ) (t2 l2 f2 : Nat) :
    (getCell (setCell a t l f v) t2 l2 f2).isSome = (getCell a t2 l2 f2).isSome := by
  by_cases h : t2 = t ∧ l2 = l ∧ f2 = f
  · obtain ⟨rfl, rfl, rfl⟩ := h
    cases hc : getCell a t2 l2 f2 with
    | none => rw [getCell_setCell_none a v hc]
    | some c =>
      rw [getCell_setCell_self a v hc]
      rfl
  · have h2 : t2 ≠ t ∨ l2 ≠ l ∨ f2 ≠ f := by tauto
    rw [getCell_setCell_ne a v h2]

theorem loopF_ok (lfs : List LocationForecast) (l t : Nat) :
    ∀ (fIdxs : List Nat) (tA lA af : Nat) (a : NDArray3),
    (∀ f ∈ fIdxs, ∃ v, getValue lfs l t f = .ok v) →
    ∃ a2, loopF lfs l t fIdxs tA lA af a = .ok a2 := by
  intro fIdxs
  induction fIdxs with
  | nil =>
    intro tA lA af a hvals
    exact ⟨a, rfl⟩
  | cons f rest ih =>
    intro tA lA af a hvals
    obtain ⟨v, hv⟩ := hvals f (List.mem_cons_self f rest)
    simp only [loopF, hv]
    exact ih tA lA (af + 1) (setCell a tA lA af v)
      (fun f2 h2 => hvals f2 (List.mem_cons_of_mem f h2))

theorem loopF_shape (lfs : List LocationForecast) (l t : Nat) :
    ∀ (fIdxs : List Nat) (tA lA af : Nat) (a a2 : NDArray3),
    loopF lfs l t fIdxs tA lA af a = .ok a2 →
    a2.shapeT = a.shapeT ∧ a2.shapeL = a.shapeL ∧ a2.shapeF = a.shapeF := by
  intro fIdxs
  induction fIdxs with
  | nil =>
    intro tA lA af a a2 h
    cases h
    exact ⟨rfl, rfl, rfl⟩
  | cons f rest ih =>
    intro tA lA af a a2 h
    simp only [loopF] at h
    cases hv : getValue lfs l t f with
    | error e =>
      rw [hv] at h
      simp at h
    | ok v =>
      rw [hv] at h
      exact ih tA lA (af + 1) (setCell a tA lA af v) a2 h

theorem loopF_isSome (lfs : List LocationForecast) (l t : Nat) :
    ∀ (fIdxs : List Nat) (tA lA af : Nat) (a a2 : NDArray3),
    loopF lfs l t fIdxs tA lA af a = .ok a2 →
    ∀ t2 l2 f2, (getCell a2 t2 l2 f2).isSome = (getCell a t2 l2 f2).isSome := by
  intro fIdxs
  induction fIdxs with
  | nil =>
    intro tA lA af a a2 h t2 l2 f2
    cases h
    rfl
  | cons f rest ih =>
    intro tA lA af a a2 h t2 l2 f2
    simp only [loopF] at h
    cases hv : getValue lfs l t f with
    | error e =>
      rw [hv] at h
      simp at h
    | ok v =>
      rw [hv] at h
      exact (ih tA lA (af + 1) (setCell a tA lA af v) a2 h t2 l2 f2).trans
        (getCell_setCell_isSome a tA lA af v t2 l2 f2)

theorem loopF_frame (lfs : List LocationForecast) (l t : Nat) :
    ∀ (fIdxs : List Nat) (tA lA af : Nat) (a a2 : NDArray3),
    loopF lfs l t fIdxs tA lA af a = .ok a2 →
    ∀ t2 l2 f2, (t2 ≠ tA ∨ l2 ≠ lA ∨ f2 < af) →
    getCell a2 t2 l2 f2 = getCell a t2 l2 f2 := by
  intro fIdxs
  induction fIdxs with
  | nil =>
    intro tA lA af a a2 h t2 l2 f2 hcond
    cases h
    rfl
  | cons f rest ih =>
    intro tA lA af a a2 h t2 l2 f2 hcond
    simp only [loopF] at h
    cases hv : getValue lfs l t f with
    | error e =>
      rw [hv] at h
      simp at h
    | ok v =>
      rw [hv] at h
      have hcond1 : t2 ≠ tA ∨ l2 ≠ lA ∨ f2 < af + 1 := by
        rcases hcond with hc | hc | hc
        · exact Or.inl hc
        · exact Or.inr (Or.inl hc)
        · exact Or.inr (Or.inr (by omega))
      have hcond2 : t2 ≠ tA ∨ l2 ≠ lA ∨ f2 ≠ af := by
        rcases hcond with hc | hc | hc
        · exact Or.inl hc
        · exact Or.inr (Or.inl hc)
        · exact Or.inr (Or.inr (by omega))
      rw [ih tA lA (af + 1) (setCell a tA lA af v) a2 h t2 l2 f2 hcond1,
        getCell_setCell_ne a v hcond2]

theorem loopF_written (lfs : List LocationForecast) (l t : Nat) :
    ∀ (fIdxs : List Nat) (tA lA af : Nat) (a a2 : NDArray3),
    loopF lfs l t fIdxs tA lA af a = .ok a2 →
    ∀ k f, fIdxs[k]? = some f → (getCell a tA lA (af + k)).isSome = true →
    ∃ v, getValue lfs l t f = .ok v ∧ getCell a2 tA lA (af + k) = some (some v) := by
  intro fIdxs
  induction fIdxs with
  | nil =>
    intro tA lA af a a2 h k f hk hsome
    simp at hk
  | cons f0 rest ih =>
    intro tA lA af a a2 h k f hk hsome
    simp only [loopF] at h
    cases hv : getValue lfs l t f0 with
    | error e =>
      rw [hv] at h
      simp at h
    | ok v0 =>
      rw [hv] at h
      cases k with
      | zero =>
        have hf : f0 = f := by simpa using hk
        obtain ⟨c, hc⟩ := Option.isSome_iff_exists.mp (by simpa using hsome)
        have hset : getCell (setCell a tA lA af v0) tA lA af = some (some v0) :=
          getCell_setCell_self a v0 hc
        have hfr : getCell a2 tA lA af =
            getCell (setCell a tA lA af v0) tA lA af :=
          loopF_frame lfs l t rest tA lA (af + 1) (setCell a tA lA af v0) a2 h
            tA lA af (Or.inr (Or.inr (by omega)))
        refine ⟨v0, by rw [← hf]; exact hv, ?_⟩
        simpa using hfr.trans hset
      | succ k2 =>
        have hsome2 :
            (getCell (setCell a tA lA af v0) tA lA (af + 1 + k2)).isSome = true := by
          rw [getCell_setCell_isSome]
          have harith : af + 1 + k2 = af + (k2 + 1) := by omega
          rw [harith]
          exact hsome
        obtain ⟨v, hv2, hcell⟩ := ih tA lA (af + 1) (setCell a tA lA af v0) a2 h
          k2 f (by simpa using hk) hsome2
        refine ⟨v, hv2, ?_⟩
        have harith : af + (k2 + 1) = af + 1 + k2 := by omega
        rw [harith]
        exact hcell

theorem loopT_ok (lfs : List LocationForecast) (l : Nat) (fIdxs : List Nat) :
    ∀ (tIdxs : List Nat) (lA tA : Nat) (a : NDArray3),
    (∀ t ∈ tIdxs, ∀ f ∈ fIdxs, ∃ v, getValue lfs l t f = .ok v) →
    ∃ a2, loopT lfs l tIdxs fIdxs lA tA a = .ok a2 := by
  intro tIdxs
  induction tIdxs with
  | nil =>
    intro lA tA a hvals
    exact ⟨a, rfl⟩
  | cons t rest ih =>
    intro lA tA a hvals
    obtain ⟨a1, ha1⟩ := loopF_ok lfs l t fIdxs tA lA 0 a
      (hvals t (List.mem_cons_self t rest))
    simp only [loopT, ha1]
    exact ih lA (tA + 1) a1
      (fun t2 h2 => hvals t2 (List.mem_cons_of_mem t h2))

theorem loopT_shape (lfs : List LocationForecast) (l : Nat) (fIdxs : List Nat) :
    ∀ (tIdxs : List Nat) (lA tA : Nat) (a a2 : NDArray3),
    loopT lfs l tIdxs fIdxs lA tA a = .ok a2 →
    a2.shapeT = a.shapeT ∧ a2.shapeL = a.shapeL ∧ a2.shapeF = a.shapeF := by
  intro tIdxs
  induction tIdxs with
  | nil =>
    intro lA tA a a2 h
    cases h
    exact ⟨rfl, rfl, rfl⟩
  | cons t rest ih =>
    intro lA tA a a2 h
    simp only [loopT] at h
    cases hF : loopF lfs l t fIdxs tA lA 0 a with
    | error e =>
      rw [hF] at h
      simp at h
    | ok a1 =>
      rw [hF] at h
      obtain ⟨s1, s2, s3⟩ := ih lA (tA + 1) a1 a2 h
      obtain ⟨s4, s5, s6⟩ := loopF_shape lfs l t fIdxs tA lA 0 a a1 hF
      exact ⟨s1.trans s4, s2.trans s5, s3.trans s6⟩

theorem loopT_isSome (lfs : List LocationForecast) (l : Nat) (fIdxs : List Nat) :
    ∀ (tIdxs : List Nat) (lA tA : Nat) (a a2 : NDArray3),
    loopT lfs l tIdxs fIdxs lA tA a = .ok a2 →
    ∀ t2 l2 f2, (getCell a2 t2 l2 f2).isSome = (getCell a t2 l2 f2).isSome := by
  intro tIdxs
  induction tIdxs with
  | nil =>
    intro lA tA a a2 h t2 l2 f2
    cases h
    rfl
  | cons t rest ih =>
    intro lA tA a a2 h t2 l2 f2
    simp only [loopT] at h
    cases hF : loopF lfs l t fIdxs tA lA 0 a with
    | error e =>
      rw [hF] at h
      simp at h
    | ok a1 =>
      rw [hF] at h
      exact (ih lA (tA + 1) a1 a2 h t2 l2 f2).trans
        (loopF_isSome lfs l t fIdxs tA lA 0 a a1 hF t2 l2 f2)

theorem loopT_frame (lfs : List LocationForecast) (l : Nat) (fIdxs : List Nat) :
    ∀ (tIdxs : List Nat) (lA tA : Nat) (a a2 : NDArray3),
    loopT lfs l tIdxs fIdxs lA tA a = .ok a2 →
    ∀ t2 l2 f2, (l2 ≠ lA ∨ t2 < tA) →
    getCell a2 t2 l2 f2 = getCell a t2 l2 f2 := by
  intro tIdxs
  induction tIdxs with
  | nil =>
    intro lA tA a a2 h t2 l2 f2 hcond
    cases h
    rfl
  | cons t rest ih =>
    intro lA tA a a2 h t2 l2 f2 hcond
    simp only [loopT] at h
    cases hF : loopF lfs l t fIdxs tA lA 0 a with
    | error e =>
      rw [hF] at h
      simp at h
    | ok a1 =>
      rw [hF] at h
      have hcond1 : l2 ≠ lA ∨ t2 < tA + 1 := by
        rcases hcond with hc | hc
        · exact Or.inl hc
        · exact Or.inr (by omega)
      have hcond2 : t2 ≠ tA ∨ l2 ≠ lA ∨ f2 < 0 := by
        rcases hcond with hc | hc
        · exact Or.inr (Or.inl hc)
        · exact Or.inl (by omega)
      rw [ih lA (tA + 1) a1 a2 h t2 l2 f2 hcond1,
        loopF_frame lfs l t fIdxs tA lA 0 a a1 hF t2 l2 f2 hcond2]

theorem loopT_written (lfs : List LocationForecast) (l : Nat) (fIdxs : List Nat) :
    ∀ (tIdxs : List Nat) (lA tA : Nat) (a a2 : NDArray3),
    loopT lfs l tIdxs fIdxs lA tA a = .ok a2 →
    ∀ j k t f, tIdxs[j]? = some t → fIdxs[k]? = some f →
    (getCell a (tA + j) lA k).isSome = true →
    ∃ v, getValue lfs l t f = .ok v ∧ getCell a2 (tA + j) lA k = some (some v) := by
  intro tIdxs
  induction tIdxs with
  | nil =>
    intro lA tA a a2 h j k t f hj hk hsome
    simp at hj
  | cons t0 rest ih =>
    intro lA tA a a2 h j k t f hj hk hsome
    simp only [loopT] at h
    cases hF : loopF lfs l t0 fIdxs tA lA 0 a with
    | error e =>
      rw [hF] at h
      simp at h
    | ok a1 =>
      rw [hF] at h
      cases j with
      | zero =>
        have ht : t0 = t := by simpa using hj
        have hsome0 : (getCell a tA lA (0 + k)).isSome = true := by
          simpa using hsome
        obtain ⟨v, hv, hcell⟩ :=
          loopF_written lfs l t0 fIdxs tA lA 0 a a1 hF k f hk hsome0
        have hfr : getCell a2 tA lA k = getCell a1 tA lA k :=
          loopT_frame lfs l fIdxs rest lA (tA + 1) a1 a2 h tA lA k
            (Or.inr (by omega))
        refine ⟨v, by rw [← ht]; exact hv, ?_⟩
        have hres : getCell a2 tA lA k = some (some v) := by
          rw [hfr]
          simpa using hcell
        simpa using hres
      | succ j2 =>
        have hsome2 : (getCell a1 (tA + 1 + j2) lA k).isSome = true := by
          rw [loopF_isSome lfs l t0 fIdxs tA lA 0 a a1 hF]
          have harith : tA + 1 + j2 = tA + (j2 + 1) := by omega
          rw [harith]
          exact hsome
        obtain ⟨v, hv2, hcell⟩ := ih lA (tA + 1) a1 a2 h j2 k t f
          (by simpa using hj) hk hsome2
        refine ⟨v, hv2, ?_⟩
        have harith : tA + (j2 + 1) = tA + 1 + j2 := by omega
        rw [harith]
        exact hcell

theorem loopL_ok (lfs : List LocationForecast) (tIdxs fIdxs : List Nat) :
    ∀ (lIdxs : List Nat) (lA : Nat) (a : NDArray3),
    (∀ l ∈ lIdxs, ∀ t ∈ tIdxs, ∀ f ∈ fIdxs, ∃ v, getValue lfs l t f = .ok v) →
    ∃ a2, loopL lfs lIdxs tIdxs fIdxs lA a = .ok a2 := by
  intro lIdxs
  induction lIdxs with
  | nil =>
    intro lA a hvals
    exact ⟨a, rfl⟩
  | cons l rest ih =>
    intro lA a hvals
    obtain ⟨a1, ha1⟩ := loopT_ok lfs l fIdxs tIdxs lA 0 a
      (hvals l (List.mem_cons_self l rest))
    simp only [loopL, ha1]
    exact ih (lA + 1) a1
      (fun l2 h2 => hvals l2 (List.mem_cons_of_mem l h2))

theorem loopL_shape (lfs : List LocationForecast) (tIdxs fIdxs : List Nat) :
    ∀ (lIdxs : List Nat) (lA : Nat) (a a2 : NDArray3),
    loopL lfs lIdxs tIdxs fIdxs lA a = .ok a2 →
    a2.shapeT = a.shapeT ∧ a2.shapeL = a.shapeL ∧ a2.shapeF = a.shapeF := by
  intro lIdxs
  induction lIdxs with
  | nil =>
    intro lA a a2 h
    cases h
    exact ⟨rfl, rfl, rfl⟩
  | cons l rest ih =>
    intro lA a a2 h
    simp only [loopL] at h
    cases hT : loopT lfs l tIdxs fIdxs lA 0 a with
    | error e =>
      rw [hT] at h
      simp at h
    | ok a1 =>
      rw [hT] at h
      obtain ⟨s1, s2, s3⟩ := ih (lA + 1) a1 a2 h
      obtain ⟨s4, s5, s6⟩ := loopT_shape lfs l fIdxs tIdxs lA 0 a a1 hT
      exact ⟨s1.trans s4, s2.trans s5, s3.trans s6⟩

theorem loopL_frame (lfs : List LocationForecast) (tIdxs fIdxs : List Nat) :
    ∀ (lIdxs : List Nat) (lA : Nat) (a a2 : NDArray3),
    loopL lfs lIdxs tIdxs fIdxs lA a = .ok a2 →
    ∀ t2 l2 f2, l2 < lA →
    getCell a2 t2 l2 f2 = getCell a t2 l2 f2 := by
  intro lIdxs
  induction lIdxs with
  | nil =>
    intro lA a a2 h t2 l2 f2 hcond
    cases h
    rfl
  | cons l rest ih =>
    intro lA a a2 h t2 l2 f2 hcond
    simp only [loopL] at h
    cases hT : loopT lfs l tIdxs fIdxs lA 0 a with
    | error e =>
      rw [hT] at h
      simp at h
    | ok a1 =>
      rw [hT] at h
      rw [ih (lA + 1) a1 a2 h t2 l2 f2 (by omega),
        loopT_frame lfs l fIdxs tIdxs lA 0 a a1 hT t2 l2 f2 (Or.inl (by omega))]

theorem loopL_written (lfs : List LocationForecast) (tIdxs fIdxs : List Nat) :
    ∀ (lIdxs : List Nat) (lA : Nat) (a a2 : NDArray3),
    loopL lfs lIdxs tIdxs fIdxs lA a = .ok a2 →
    ∀ i j k l t f, lIdxs[i]? = some l → tIdxs[j]? = some t → fIdxs[k]? = some f →
    (getCell a j (lA + i) k).isSome = true →
    ∃ v, getValue lfs l t f = .ok v ∧ getCell a2 j (lA + i) k = some (some v) := by
  intro lIdxs
  induction lIdxs with
  | nil =>
    intro lA a a2 h i j k l t f hi hj hk hsome
    simp at hi
  | cons l0 rest ih =>
    intro lA a a2 h i j k l t f hi hj hk hsome
    simp only [loopL] at h
    cases hT : loopT lfs l0 tIdxs fIdxs lA 0 a with
    | error e =>
      rw [hT] at h
      simp at h
    | ok a1 =>
      rw [hT] at h
      cases i with
      | zero =>
        have hl : l0 = l := by simpa using hi
        have hsome0 : (getCell a (0 + j) lA k).isSome = true := by
          simpa using hsome
        obtain ⟨v, hv, hcell⟩ :=
          loopT_written lfs l0 fIdxs tIdxs lA 0 a a1 hT j k t f hj hk hsome0
        have hfr : getCell a2 j lA k = getCell a1 j lA k :=
          loopL_frame lfs tIdxs fIdxs rest (lA + 1) a1 a2 h j lA k (by omega)
        refine ⟨v, by rw [← hl]; exact hv, ?_⟩
        have hres : getCell a2 j lA k = some (some v) := by
          rw [hfr]
          simpa using hcell
        simpa using hres
      | succ i2 =>
        have hsome2 : (getCell a1 j (lA + 1 + i2) k).isSome = true := by
          rw [loopT_isSome lfs l0 fIdxs tIdxs lA 0 a a1 hT]
          have harith : lA + 1 + i2 = lA + (i2 + 1) := by omega
          rw [harith]
          exact hsome
        obtain ⟨v, hv2, hcell⟩ := ih (lA + 1) a1 a2 h i2 j k l t f
          (by simpa using hi) hj hk hsome2
        refine ⟨v, hv2, ?_⟩
        have harith : lA + (i2 + 1) = lA + 1 + i2 := by omega
        rw [harith]
        exact hcell

theorem memOfGetElem {α : Type} {l2 : List α} {i : Nat} {a : α}
    (h : l2[i]? = some a) : a ∈ l2 := by
  obtain ⟨hlt, he⟩ := List.getElem?_eq_some.mp h
  rw [← he]
  exact List.getElem_mem hlt

theorem getCell_npFull {T L F t l f : Nat} (ht : t < T) (hl : l < L) (hf : f < F) :
    getCell (npFull T L F) t l f = some none := by
  simp [getCell, npFull, List.getElem?_replicate, ht, hl, hf]

theorem getValue_ok_of_uniform {lfs : List LocationForecast} {T F : Nat}
    (huT : ∀ lf ∈ lfs, lf.forecasts.length = T)
    (huF : ∀ lf ∈ lfs, ∀ fc ∈ lf.forecasts, fc.features.length = F)
    {l t f : Nat} (hl : l < lfs.length) (ht : t < T) (hf : f < F) :
    ∃ v, getValue lfs l t f = .ok v := by
  have h1 : lfs[l]? = some lfs[l] := List.getElem?_eq_getElem hl
  have hmem : lfs[l] ∈ lfs := List.getElem_mem hl
  have ht2 : t < lfs[l].forecasts.length := by
    rw [huT lfs[l] hmem]
    exact ht
  have h2 : lfs[l].forecasts[t]? = some lfs[l].forecasts[t] :=
    List.getElem?_eq_getElem ht2
  have hmem2 : lfs[l].forecasts[t] ∈ lfs[l].forecasts := List.getElem_mem ht2
  have hf2 : f < lfs[l].forecasts[t].features.length := by
    rw [huF lfs[l] hmem lfs[l].forecasts[t] hmem2]
    exact hf
  have h3 : lfs[l].forecasts[t].features[f]? = some lfs[l].forecasts[t].features[f] :=
    List.getElem?_eq_getElem hf2
  exact ⟨lfs[l].forecasts[t].features[f].value, by simp [getValue, h1, h2, h3]⟩

/-- C1: on a non-empty uniform payload (every location exposes `T` validity
times, every validity-time entry exposes `F` features, `T` read off the first
location and positive so the template features exist), `to_ndarray_vlf` with
all three filters absent returns a dense `(T, L, F)` array with no warnings,
whose cell `(t, l, f)` holds exactly the value at
`location_forecasts[l].forecasts[t].features[f].value`. -/
theorem toNdarray_noFilter_dense (p : Forecasts) (lf0 : LocationForecast) (T F : Nat)
    (h0 : p.location_forecasts[0]? = some lf0)
    (hT : lf0.forecasts.length = T)
    (hTpos : 0 < T)
    (huT : ∀ lf ∈ p.location_forecasts, lf.forecasts.length = T)
    (huF : ∀ lf ∈ p.location_forecasts, ∀ fc ∈ lf.forecasts, fc.features.length = F) :
    ∃ arr, p.to_ndarray_vlf none none none = .ok (arr, []) ∧
      arr.shapeT = T ∧ arr.shapeL = p.location_forecasts.length ∧ arr.shapeF = F ∧
      ∀ t l f, t < T → l < p.location_forecasts.length → f < F →
        ∃ v, getValue p.location_forecasts l t f = .ok v ∧
          getCell arr t l f = some (some v) := by
  have hne : p.location_forecasts ≠ [] := by
    intro he
    rw [he] at h0
    simp at h0
  have hie : p.location_forecasts.isEmpty = false := by
    simp [List.isEmpty_iff]
    exact hne
  have hmem0 : lf0 ∈ p.location_forecasts := memOfGetElem h0
  have ht0 : 0 < lf0.forecasts.length := by
    rw [hT]
    exact hTpos
  have hfc0 : lf0.forecasts[0]? = some lf0.forecasts[0] := List.getElem?_eq_getElem ht0
  have hF0 : lf0.forecasts[0].features.length = F :=
    huF lf0 hmem0 lf0.forecasts[0] (List.getElem_mem ht0)
  have hvals : ∀ l ∈ List.range p.location_forecasts.length,
      ∀ t ∈ List.range lf0.forecasts.length,
      ∀ f ∈ List.range lf0.forecasts[0].features.length,
      ∃ v, getValue p.location_forecasts l t f = .ok v := by
    intro l hl t ht f hf
    rw [List.mem_range] at hl ht hf
    refine getValue_ok_of_uniform huT huF hl ?_ ?_
    · rw [← hT]
      exact ht
    · rw [← hF0]
      exact hf
  obtain ⟨arr0, hL⟩ := loopL_ok p.location_forecasts
    (List.range lf0.forecasts.length) (List.range lf0.forecasts[0].features.length)
    (List.range p.location_forecasts.length) 0
    (npFull (List.range lf0.forecasts.length).length
      (List.range p.location_forecasts.length).length
      (List.range lf0.forecasts[0].features.length).length) hvals
  have hbody : toNdarrayBody p.location_forecasts none none none = .ok (arr0, []) := by
    simp only [toNdarrayBody, h0, hfc0, truthy, Bool.false_eq_true, if_false]
    rw [hL]
    simp
  obtain ⟨s1, s2, s3⟩ := loopL_shape p.location_forecasts
    (List.range lf0.forecasts.length) (List.range lf0.forecasts[0].features.length)
    (List.range p.location_forecasts.length) 0 _ arr0 hL
  refine ⟨arr0, ?_, ?_, ?_, ?_, ?_⟩
  · simp only [Forecasts.to_ndarray_vlf, hie, Bool.false_eq_true, if_false, hbody]
  · rw [s1]
    simp [npFull, List.length_range, hT]
  · rw [s2]
    simp [npFull, List.length_range]
  · rw [s3]
    simp [npFull, List.length_range, hF0]
  · intro t l f htT hlL hfF
    have htT2 : t < lf0.forecasts.length := by
      rw [hT]
      exact htT
    have hfF2 : f < lf0.forecasts[0].features.length := by
      rw [hF0]
      exact hfF
    have hi : (List.range p.location_forecasts.length)[l]? = some l := by
      simp [List.getElem?_range, hlL]
    have hj : (List.range lf0.forecasts.length)[t]? = some t := by
      simp [List.getElem?_range, htT2]
    have hk : (List.range lf0.forecasts[0].features.length)[f]? = some f := by
      simp [List.getElem?_range, hfF2]
    have hstart : (getCell (npFull (List.range lf0.forecasts.length).length
        (List.range p.location_forecasts.length).length
        (List.range lf0.forecasts[0].features.length).length) t (0 + l) f).isSome
        = true := by
      rw [getCell_npFull]
      · rfl
      · rw [List.length_range]
        exact htT2
      · rw [List.length_range]
        omega
      · rw [List.length_range]
        exact hfF2
    obtain ⟨v, hv, hcell⟩ := loopL_written p.location_forecasts
      (List.range lf0.forecasts.length) (List.range lf0.forecasts[0].features.length)
      (List.range p.location_forecasts.length) 0 _ arr0 hL l t f l t f hi hj hk hstart
    refine ⟨v, hv, ?_⟩
    simpa using hcell

theorem toNdarray_noFilter_dense_witness :
    ∃ arr, Forecasts.to_ndarray_vlf ⟨payload232⟩ none none none = .ok (arr, []) ∧
      arr.shapeT = 3 ∧ arr.shapeL = payload232.length ∧ arr.shapeF = 2 ∧
      ∀ t l f, t < 3 → l < payload232.length → f < 2 →
        ∃ v, getValue payload232 l t f = .ok v ∧
          getCell arr t l f = some (some v) :=
  toNdarray_noFilter_dense ⟨payload232⟩ _ 3 2 rfl (by decide) (by decide)
    (by decide) (by decide)

theorem findFirst_some {α : Type} {p : α → Bool} :
    ∀ {l : List α} {i : Nat}, findFirst p l = some i →
    ∃ a, l[i]? = some a ∧ p a = true ∧
      ∀ j b, j < i → l[j]? = some b → p b = false := by
  intro l
  induction l with
  | nil =>
    intro i h
    simp [findFirst] at h
  | cons x rest ih =>
    intro i h
    rw [findFirst] at h
    by_cases hx : p x
    · rw [if_pos hx] at h
      cases h
      exact ⟨x, by simp, hx, fun j b hj _ => absurd hj (Nat.not_lt_zero j)⟩
    · rw [if_neg hx] at h
      cases hf : findFirst p rest with
      | none =>
        rw [hf] at h
        simp at h
      | some i2 =>
        rw [hf] at h
        simp only [Option.map_some', Option.some.injEq] at h
        obtain ⟨a, ha, hpa, hmin⟩ := ih hf
        subst h
        refine ⟨a, by simpa using ha, hpa, ?_⟩
        intro j b hj hb
        cases j with
        | zero =>
          have hbx : b = x := by simpa using hb.symm
          rw [hbx]
          simpa using hx
        | succ j2 =>
          exact hmin j2 b (by omega) (by simpa using hb)

theorem findFirst_lt_length {α : Type} {p : α → Bool} {l : List α} {i : Nat}
    (h : findFirst p l = some i) : i < l.length := by
  obtain ⟨a, ha, _, _⟩ := findFirst_some h
  obtain ⟨hlt, _⟩ := List.getElem?_eq_some.mp ha
  exact hlt

theorem length_filterMap_eq {α β : Type} (g : α → Option β) :
    ∀ l : List α,
    (l.filterMap g).length = (l.filter (fun a => (g a).isSome)).length := by
  intro l
  induction l with
  | nil => rfl
  | cons x rest ih =>
    cases hx : g x with
    | none => simp [List.filterMap_cons, List.filter_cons, hx, ih]
    | some b => simp [List.filterMap_cons, List.filter_cons, hx, ih]

theorem resolve_first_match {α β : Type} (pred : α → β → Bool)
    (reqs : List α) (tmpl : List β) :
    ∀ i ∈ reqs.filterMap (fun r => findFirst (pred r) tmpl),
    ∃ r ∈ reqs, ∃ b, tmpl[i]? = some b ∧ pred r b = true ∧
      ∀ j b2, j < i → tmpl[j]? = some b2 → pred r b2 = false := by
  intro i hi
  obtain ⟨r, hr, hfind⟩ := List.mem_filterMap.mp hi
  obtain ⟨b, hb, hpb, hmin⟩ := findFirst_some hfind
  exact ⟨r, hr, b, hb, hpb, hmin⟩

/-- C3: with explicitly supplied non-empty filter lists, each requested value
resolves (by a linear scan with early exit) to the index of the first matching
template entry — structural equality for locations, exact timestamp equality
for validity times, mapped enum identity for features; unmatched requests
contribute no index (the resolved axis counts only the matched requests), no
error is raised, and on a uniform payload the output shape equals the resolved
index counts. -/
theorem filter_resolution_first_match (p : Forecasts) (lf0 : LocationForecast)
    (fc0 : Forecast) (T F : Nat)
    (reqLocs : List Location) (reqTimes : List Int) (reqFeats : List ForecastFeature)
    (h0 : p.location_forecasts[0]? = some lf0)
    (hfc0 : lf0.forecasts[0]? = some fc0)
    (hT : lf0.forecasts.length = T)
    (huT : ∀ lf ∈ p.location_forecasts, lf.forecasts.length = T)
    (huF : ∀ lf ∈ p.location_forecasts, ∀ fc ∈ lf.forecasts, fc.features.length = F)
    (hnl : reqLocs ≠ []) (hnt : reqTimes ≠ []) (hnf : reqFeats ≠ []) :
    (∀ i ∈ resolveLocations reqLocs p.location_forecasts,
      ∃ loc ∈ reqLocs, ∃ lf, p.location_forecasts[i]? = some lf ∧
        locMatches loc lf = true ∧
        ∀ j lf2, j < i → p.location_forecasts[j]? = some lf2 →
          locMatches loc lf2 = false) ∧
    (∀ i ∈ resolveTimes reqTimes lf0.forecasts,
      ∃ rt ∈ reqTimes, ∃ fc, lf0.forecasts[i]? = some fc ∧
        (rt == fc.valid_at_ts) = true ∧
        ∀ j fc2, j < i → lf0.forecasts[j]? = some fc2 →
          (rt == fc2.valid_at_ts) = false) ∧
    (∀ i ∈ resolveFeatures reqFeats fc0.features,
      ∃ rf ∈ reqFeats, ∃ fe, fc0.features[i]? = some fe ∧
        (rf == ForecastFeature.from_pb fe.feature) = true ∧
        ∀ j fe2, j < i → fc0.features[j]? = some fe2 →
          (rf == ForecastFeature.from_pb fe2.feature) = false) ∧
    (resolveLocations reqLocs p.location_forecasts).length =
      (reqLocs.filter
        (fun loc =>
          (findFirst (locMatches loc) p.location_forecasts).isSome)).length ∧
    (resolveTimes reqTimes lf0.forecasts).length =
      (reqTimes.filter
        (fun rt =>
          (findFirst (fun fc => rt == fc.valid_at_ts) lf0.forecasts).isSome)).length ∧
    (resolveFeatures reqFeats fc0.features).length =
      (reqFeats.filter
        (fun rf =>
          (findFirst (fun fe => rf == ForecastFeature.from_pb fe.feature)
            fc0.features).isSome)).length ∧
    ∃ arr warns,
      p.to_ndarray_vlf (some reqTimes) (some reqLocs) (some reqFeats) =
        .ok (arr, warns) ∧
      arr.shapeT = (resolveTimes reqTimes lf0.forecasts).length ∧
      arr.shapeL = (resolveLocations reqLocs p.location_forecasts).length ∧
      arr.shapeF = (resolveFeatures reqFeats fc0.features).length := by
  have hne : p.location_forecasts ≠ [] := by
    intro he
    rw [he] at h0
    simp at h0
  have hie : p.location_forecasts.isEmpty = false := by
    simp [List.isEmpty_iff]
    exact hne
  have hmem0 : lf0 ∈ p.location_forecasts := memOfGetElem h0
  have hFc0 : fc0.features.length = F := huF lf0 hmem0 fc0 (memOfGetElem hfc0)
  have hbL : ∀ l ∈ resolveLocations reqLocs p.location_forecasts,
      l < p.location_forecasts.length := by
    intro l hl
    simp only [resolveLocations] at hl
    obtain ⟨loc, _, hfind⟩ := List.mem_filterMap.mp hl
    exact findFirst_lt_length hfind
  have hbT : ∀ t ∈ resolveTimes reqTimes lf0.forecasts, t < T := by
    intro t ht
    simp only [resolveTimes] at ht
    obtain ⟨rt, _, hfind⟩ := List.mem_filterMap.mp ht
    have hlt := findFirst_lt_length hfind
    rw [hT] at hlt
    exact hlt
  have hbF : ∀ f ∈ resolveFeatures reqFeats fc0.features, f < F := by
    intro f hf
    simp only [resolveFeatures] at hf
    obtain ⟨rf2, _, hfind⟩ := List.mem_filterMap.mp hf
    have hlt := findFirst_lt_length hfind
    rw [hFc0] at hlt
    exact hlt
  have hvals : ∀ l ∈ resolveLocations reqLocs p.location_forecasts,
      ∀ t ∈ resolveTimes reqTimes lf0.forecasts,
      ∀ f ∈ resolveFeatures reqFeats fc0.features,
      ∃ v, getValue p.location_forecasts l t f = .ok v :=
    fun l hl t ht f hf =>
      getValue_ok_of_uniform huT huF (hbL l hl) (hbT t ht) (hbF f hf)
  obtain ⟨arr0, hL⟩ := loopL_ok p.location_forecasts
    (resolveTimes reqTimes lf0.forecasts) (resolveFeatures reqFeats fc0.features)
    (resolveLocations reqLocs p.location_forecasts) 0
    (npFull (resolveTimes reqTimes lf0.forecasts).length
      (resolveLocations reqLocs p.location_forecasts).length
      (resolveFeatures reqFeats fc0.features).length) hvals
  have htr1 : truthy (some reqTimes) = true := by
    simp [truthy, List.isEmpty_iff]
    exact hnt
  have htr2 : truthy (some reqLocs) = true := by
    simp [truthy, List.isEmpty_iff]
    exact hnl
  have htr3 : truthy (some reqFeats) = true := by
    simp [truthy, List.isEmpty_iff]
    exact hnf
  have hbody2 : toNdarrayBody p.location_forecasts (some reqTimes) (some reqLocs)
      (some reqFeats) = .ok (arr0,
        (if (some reqTimes).isSome && !(arr0.shapeT == reqTimes.length)
          then [WarnDim.times] else []) ++
        (if (some reqLocs).isSome &&
            !(arr0.shapeL == (resolveLocations reqLocs p.location_forecasts).length)
          then [WarnDim.locations] else []) ++
        (if (some reqFeats).isSome &&
            !(arr0.shapeF == (resolveFeatures reqFeats fc0.features).length)
          then [WarnDim.features] else [])) := by
    simp only [toNdarrayBody, h0, hfc0, htr1, htr2, htr3, eq_self_iff_true,
      if_true, Option.getD_some]
    rw [hL]
  obtain ⟨warns0, hbody4⟩ :
      ∃ warns, toNdarrayBody p.location_forecasts (some reqTimes) (some reqLocs)
        (some reqFeats) = .ok (arr0, warns) := ⟨_, hbody2⟩
  obtain ⟨s1, s2, s3⟩ := loopL_shape p.location_forecasts
    (resolveTimes reqTimes lf0.forecasts) (resolveFeatures reqFeats fc0.features)
    (resolveLocations reqLocs p.location_forecasts) 0 _ arr0 hL
  refine ⟨?_, ?_, ?_, ?_, ?_, ?_, arr0, warns0, ?_, ?_, ?_, ?_⟩
  · intro i hi
    simp only [resolveLocations] at hi
    exact resolve_first_match locMatches reqLocs p.location_forecasts i hi
  · intro i hi
    simp only [resolveTimes] at hi
    exact resolve_first_match (fun rt fc => rt == fc.valid_at_ts) reqTimes
      lf0.forecasts i hi
  · intro i hi
    simp only [resolveFeatures] at hi
    exact resolve_first_match
      (fun rf fe => rf == ForecastFeature.from_pb fe.feature) reqFeats
      fc0.features i hi
  · exact length_filterMap_eq _ reqLocs
  · exact length_filterMap_eq _ reqTimes
  · exact length_filterMap_eq _ reqFeats
  · simp only [Forecasts.to_ndarray_vlf, hie, Bool.false_eq_true, if_false, hbody4]
  · exact s1
  · exact s2
  · exact s3

theorem filter_resolution_first_match_witness :
    ∃ arr warns,
      Forecasts.to_ndarray_vlf ⟨payload232⟩ (some [20])
        (some [⟨49, 2, "FR"⟩]) (some [ForecastFeature.TEMPERATURE_2_METRE]) =
        .ok (arr, warns) ∧
      arr.shapeT = 1 ∧ arr.shapeL = 1 ∧ arr.shapeF = 1 :=
  (filter_resolution_first_match ⟨payload232⟩ _ _ 3 2
    [⟨49, 2, "FR"⟩] [20] [ForecastFeature.TEMPERATURE_2_METRE]
    rfl rfl (by decide) (by decide) (by decide) (by decide) (by decide)
    (by decide)).2.2.2.2.2.2
